import Mathlib

/-!
# gogger: a leveled console logger

Shallow embedding of `gogger.go` and the properties of its level filter, its
level setter and its line format.

Conventions of the embedding

* Go `int` is `Int`; the program does no arithmetic on levels, only
  comparisons and equality tests, so no wrap-around can occur.
* Go `string` is `String`; the program only concatenates strings.
* Standard output is the text written so far; `fmt.Println s` appends `s`
  and one newline.
* A Go `error` is `Option GoError`, `none` being `nil`.
* An index into a fixed-size array outside its bounds is a run-time abort,
  modelled as `none` in `Option`.
* The three facilities the logger delegates to (time layout rendering,
  terminal colouring, printf interpolation) are fields of `Host`; every
  general theorem holds for every host.
-/

namespace gogger

/-! ## Constants and tables -/

/-- VerboseLevel represents the level at which Verbose logs can be displayed. -/
def VerboseLevel : Int := 0
/-- InfoLevel represents the level at which Info logs can be displayed. -/
def InfoLevel : Int := 1
/-- WarnLevel represents the level at which Warn logs can be displayed. -/
def WarnLevel : Int := 2
/-- ErrorLevel represents the level at which Error logs can be displayed. -/
def ErrorLevel : Int := 3
/-- FatalLevel represents the level at which Fatal logs can be displayed. -/
def FatalLevel : Int := 4

/-- UKDateTimeFormat represents the time in the UK standard format. -/
def UKDateTimeFormat : String := "02-01-2006 15:04:05"
/-- USDateTimeFormat represents the time in the US standard format. -/
def USDateTimeFormat : String := "01-02-2006 15:04:05"

namespace color

/-- The colour attributes of the terminal-colouring collaborator that the
logger names. -/
inductive Attribute where
  | FgRed
  | FgGreen
  | FgYellow
  | FgMagenta
  | FgCyan
  deriving DecidableEq, Repr

/-- The SGR number of an attribute (foreground colours start at 30). -/
def Attribute.code : Attribute → Nat
  | .FgRed => 31
  | .FgGreen => 32
  | .FgYellow => 33
  | .FgMagenta => 35
  | .FgCyan => 36

end color

/-- ProjectNameColor is the color used for the project name in logs. -/
def ProjectNameColor : color.Attribute := color.Attribute.FgGreen

/-- LevelColors is the list of colour values to use for each level. -/
def LevelColors : List color.Attribute :=
  [color.Attribute.FgMagenta, color.Attribute.FgCyan, color.Attribute.FgYellow,
   color.Attribute.FgRed, color.Attribute.FgRed]

/-- LevelStrings represents the strings used in logs to represent that
particular level. -/
def LevelStrings : List String := ["verbose", "info   ", "warn   ", "error  ", "fatal  "]

/-! ## Host facilities -/

/-- A clock reading (what `time.Now()` returns), as nanoseconds since the epoch. -/
abbrev Time := Int

/-- The facilities of the host that the logger calls: `Format now layout` is
`now.Format(layout)`, `Sprint a s` is `color.New(a).Sprint(s)`, and
`Sprintf m args` is `fmt.Sprintf(m, args...)`. `Arg` is the type of the
variadic operands. -/
structure Host (Arg : Type) where
  Format : Time → String → String
  Sprint : color.Attribute → String → String
  Sprintf : String → List Arg → String

/-- A Go error value created by `fmt.Errorf`: it holds its message. -/
structure GoError where
  msg : String
  deriving DecidableEq, Repr

/-- Indexing a fixed-size array with an `int`: `none` is the run-time abort
for an index out of range. -/
def index {α : Type} (xs : List α) (i : Int) : Option α :=
  if i < 0 then none else xs[i.toNat]?

/-- The effect of `fmt.Println s` on the text of standard output. -/
def Println (stdout s : String) : String := stdout ++ s ++ "\n"

/-- The result of `fmt.Sprintf("%s %s [%s]: %s", a, b, c, d)` on four strings. -/
def sprintf4 (a b c d : String) : String := a ++ " " ++ b ++ " [" ++ c ++ "]: " ++ d

/-- The result of `fmt.Errorf("gogger: provided level (%d) is invalid", level)`. -/
def invalidLevel (level : Int) : GoError :=
  ⟨"gogger: provided level (" ++ toString level ++ ") is invalid"⟩

/-! ## The logger -/

/-- GoggerLogger is the logging handler used for printing messages to the console. -/
structure GoggerLogger where
  ProjectName : String
  Level : Int
  TimeFormat : String
  Colorful : Bool
  deriving DecidableEq, Repr

/-- What an emission call leaves behind: its return value, the logger and the
text of standard output. -/
structure Outcome where
  ret : Bool
  g : GoggerLogger
  stdout : String
  deriving DecidableEq, Repr

/-- The slice `possibleLevels` of `SetLevel`. -/
def possibleLevels : List Int := [VerboseLevel, InfoLevel, WarnLevel, ErrorLevel, FatalLevel]

/-- The `for ... range` loop of `SetLevel`: `some g'` when an iteration
assigns the level and returns, `none` when the loop runs to its end. -/
def GoggerLogger.SetLevel.loop (g : GoggerLogger) (level : Int) : List Int → Option GoggerLogger
  | [] => none
  | possibleLevel :: rest =>
    if possibleLevel = level then some { g with Level := level }
    else GoggerLogger.SetLevel.loop g level rest

/-- SetLevel will change the current level of the GoggerLogger. Returns the
logger after the call and the error (`none` is `nil`). -/
def GoggerLogger.SetLevel (g : GoggerLogger) (level : Int) : GoggerLogger × Option GoError :=
  match GoggerLogger.SetLevel.loop g level possibleLevels with
  | some g' => (g', none)
  | none => (g, some (invalidLevel level))

/-- The private `fmtMsg`: the line for a message at a level, `none` when the
level is no index of the tables. -/
def GoggerLogger.fmtMsg {Arg : Type} (h : Host Arg) (now : Time) (g : GoggerLogger)
    (level : Int) (message : String) : Option String :=
  if g.Colorful then
    match index LevelColors level, index LevelStrings level with
    | some c, some s =>
      some (sprintf4 (h.Format now g.TimeFormat) (h.Sprint c s)
        (h.Sprint ProjectNameColor g.ProjectName) message)
    | _, _ => none
  else
    match index LevelStrings level with
    | some s => some (sprintf4 (h.Format now g.TimeFormat) s g.ProjectName message)
    | none => none

/-- Verbose messages are at the lowest log level. -/
def GoggerLogger.Verbose {Arg : Type} (h : Host Arg) (now : Time) (g : GoggerLogger)
    (stdout : String) (message : String) : Option Outcome :=
  let requiredLevel : Int := VerboseLevel
  if g.Level > requiredLevel then some ⟨false, g, stdout⟩
  else
    match g.fmtMsg h now requiredLevel message with
    | some line => some ⟨true, g, Println stdout line⟩
    | none => none

/-- Verbosef is like Verbose but with Sprintf. -/
def GoggerLogger.Verbosef {Arg : Type} (h : Host Arg) (now : Time) (g : GoggerLogger)
    (stdout : String) (message : String) (formatOptions : List Arg) : Option Outcome :=
  let requiredLevel : Int := VerboseLevel
  if g.Level > requiredLevel then some ⟨false, g, stdout⟩
  else
    match g.fmtMsg h now requiredLevel (h.Sprintf message formatOptions) with
    | some line => some ⟨true, g, Println stdout line⟩
    | none => none

/-- Info logs are at the default logging level. -/
def GoggerLogger.Info {Arg : Type} (h : Host Arg) (now : Time) (g : GoggerLogger)
    (stdout : String) (message : String) : Option Outcome :=
  let requiredLevel : Int := InfoLevel
  if g.Level > requiredLevel then some ⟨false, g, stdout⟩
  else
    match g.fmtMsg h now requiredLevel message with
    | some line => some ⟨true, g, Println stdout line⟩
    | none => none

/-- Infof is like Info but with Sprintf. -/
def GoggerLogger.Infof {Arg : Type} (h : Host Arg) (now : Time) (g : GoggerLogger)
    (stdout : String) (message : String) (formatOptions : List Arg) : Option Outcome :=
  let requiredLevel : Int := InfoLevel
  if g.Level > requiredLevel then some ⟨false, g, stdout⟩
  else
    match g.fmtMsg h now requiredLevel (h.Sprintf message formatOptions) with
    | some line => some ⟨true, g, Println stdout line⟩
    | none => none

/-- Warn messages represent something bad happening without it being catastrophic. -/
def GoggerLogger.Warn {Arg : Type} (h : Host Arg) (now : Time) (g : GoggerLogger)
    (stdout : String) (message : String) : Option Outcome :=
  let requiredLevel : Int := WarnLevel
  if g.Level > requiredLevel then some ⟨false, g, stdout⟩
  else
    match g.fmtMsg h now requiredLevel message with
    | some line => some ⟨true, g, Println stdout line⟩
    | none => none

/-- Warnf is like Warn but with Sprintf. -/
def GoggerLogger.Warnf {Arg : Type} (h : Host Arg) (now : Time) (g : GoggerLogger)
    (stdout : String) (message : String) (formatOptions : List Arg) : Option Outcome :=
  let requiredLevel : Int := WarnLevel
  if g.Level > requiredLevel then some ⟨false, g, stdout⟩
  else
    match g.fmtMsg h now requiredLevel (h.Sprintf message formatOptions) with
    | some line => some ⟨true, g, Println stdout line⟩
    | none => none

/-- Error messages represent an error that needs logging but was still handled. -/
def GoggerLogger.Error {Arg : Type} (h : Host Arg) (now : Time) (g : GoggerLogger)
    (stdout : String) (message : String) : Option Outcome :=
  let requiredLevel : Int := ErrorLevel
  if g.Level > requiredLevel then some ⟨false, g, stdout⟩
  else
    match g.fmtMsg h now requiredLevel message with
    | some line => some ⟨true, g, Println stdout line⟩
    | none => none

/-- Errorf is like Error but with Sprintf. -/
def GoggerLogger.Errorf {Arg : Type} (h : Host Arg) (now : Time) (g : GoggerLogger)
    (stdout : String) (message : String) (formatOptions : List Arg) : Option Outcome :=
  let requiredLevel : Int := ErrorLevel
  if g.Level > requiredLevel then some ⟨false, g, stdout⟩
  else
    match g.fmtMsg h now requiredLevel (h.Sprintf message formatOptions) with
    | some line => some ⟨true, g, Println stdout line⟩
    | none => none

/-- Fatal messages denote that something really bad happened. -/
def GoggerLogger.Fatal {Arg : Type} (h : Host Arg) (now : Time) (g : GoggerLogger)
    (stdout : String) (message : String) : Option Outcome :=
  let requiredLevel : Int := FatalLevel
  if g.Level > requiredLevel then some ⟨false, g, stdout⟩
  else
    match g.fmtMsg h now requiredLevel message with
    | some line => some ⟨true, g, Println stdout line⟩
    | none => none

/-- Fatalf is like Fatal but with Sprintf. -/
def GoggerLogger.Fatalf {Arg : Type} (h : Host Arg) (now : Time) (g : GoggerLogger)
    (stdout : String) (message : String) (formatOptions : List Arg) : Option Outcome :=
  let requiredLevel : Int := FatalLevel
  if g.Level > requiredLevel then some ⟨false, g, stdout⟩
  else
    match g.fmtMsg h now requiredLevel (h.Sprintf message formatOptions) with
    | some line => some ⟨true, g, Println stdout line⟩
    | none => none

/-- New initialises a new GoggerLogger. -/
def New (projectName : String) (timeFormat : String) (colorful : Bool) : GoggerLogger :=
  { ProjectName := projectName, TimeFormat := timeFormat, Level := InfoLevel,
    Colorful := colorful }

/-! ## The ten emission operations as one family -/

/-- The five severities. -/
inductive Severity where
  | Verbose
  | Info
  | Warn
  | Error
  | Fatal
  deriving DecidableEq, Repr

/-- The fixed severity number of each tier. -/
def Severity.num : Severity → Int
  | .Verbose => 0
  | .Info => 1
  | .Warn => 2
  | .Error => 3
  | .Fatal => 4

/-- The label of each tier, as the specification lists them. -/
def Severity.label : Severity → String
  | .Verbose => "verbose"
  | .Info => "info   "
  | .Warn => "warn   "
  | .Error => "error  "
  | .Fatal => "fatal  "

/-- The colour of each tier, as the specification lists them. -/
def Severity.colour : Severity → color.Attribute
  | .Verbose => color.Attribute.FgMagenta
  | .Info => color.Attribute.FgCyan
  | .Warn => color.Attribute.FgYellow
  | .Error => color.Attribute.FgRed
  | .Fatal => color.Attribute.FgRed

/-- The plain emission method of a tier. -/
def plain {Arg : Type} (h : Host Arg) (now : Time) (g : GoggerLogger) (stdout : String)
    (S : Severity) (message : String) : Option Outcome :=
  match S with
  | .Verbose => g.Verbose h now stdout message
  | .Info => g.Info h now stdout message
  | .Warn => g.Warn h now stdout message
  | .Error => g.Error h now stdout message
  | .Fatal => g.Fatal h now stdout message

/-- The formatted emission method of a tier. -/
def formatted {Arg : Type} (h : Host Arg) (now : Time) (g : GoggerLogger) (stdout : String)
    (S : Severity) (message : String) (formatOptions : List Arg) : Option Outcome :=
  match S with
  | .Verbose => g.Verbosef h now stdout message formatOptions
  | .Info => g.Infof h now stdout message formatOptions
  | .Warn => g.Warnf h now stdout message formatOptions
  | .Error => g.Errorf h now stdout message formatOptions
  | .Fatal => g.Fatalf h now stdout message formatOptions

/-- One emission call: which of the ten methods, and its operands. -/
inductive Emission (Arg : Type) where
  | plain (S : Severity) (message : String)
  | formatted (S : Severity) (message : String) (formatOptions : List Arg)

/-- The tier of an emission call. -/
def Emission.severity {Arg : Type} : Emission Arg → Severity
  | .plain S _ => S
  | .formatted S _ _ => S

/-- Running one emission call. -/
def emit {Arg : Type} (h : Host Arg) (now : Time) (g : GoggerLogger) (stdout : String) :
    Emission Arg → Option Outcome
  | .plain S message => plain h now g stdout S message
  | .formatted S message formatOptions => formatted h now g stdout S message formatOptions

/-- The text an emission call hands to `fmtMsg`: the message itself, or its
interpolation. -/
def Emission.text {Arg : Type} (h : Host Arg) : Emission Arg → String
  | .plain _ message => message
  | .formatted _ message formatOptions => h.Sprintf message formatOptions

/-- The levels a logger may hold according to the data model. -/
def ValidLevel (n : Int) : Prop := n ∈ ([0, 1, 2, 3, 4] : List Int)

instance (n : Int) : Decidable (ValidLevel n) := by
  unfold ValidLevel; infer_instance

/-- The colourful line as the specification words it: the structure of the
plain line, the label wrapped in the colour of its tier and the bracketed tag
`[projectName]` wrapped in the project colour. -/
def specColourfulLine (wrap : color.Attribute → String → String) (t : String)
    (projectName : String) (S : Severity) (m : String) : String :=
  t ++ " " ++ wrap S.colour S.label ++ " " ++
    wrap color.Attribute.FgGreen ("[" ++ projectName ++ "]") ++ ": " ++ m

/-- The number of newline characters of a text: the number of
newline-terminated lines it holds. -/
def newlines (s : String) : Nat := s.data.count '\n'

/-! ## Sequences of calls on one logger -/

/-- A call of the public API on an existing logger. -/
inductive Call (Arg : Type) where
  | SetLevel (level : Int)
  | Emit (now : Time) (e : Emission Arg)

/-- The logger together with the text of standard output. -/
structure World where
  g : GoggerLogger
  stdout : String
  deriving DecidableEq, Repr

/-- One call: `none` is a run-time abort. -/
def step {Arg : Type} (h : Host Arg) (w : World) : Call Arg → Option World
  | .SetLevel level => some ⟨(w.g.SetLevel level).1, w.stdout⟩
  | .Emit now e =>
    match emit h now w.g w.stdout e with
    | some o => some ⟨o.g, o.stdout⟩
    | none => none

/-- A finite sequence of calls, in order. -/
def run {Arg : Type} (h : Host Arg) (w : World) : List (Call Arg) → Option World
  | [] => some w
  | c :: cs =>
    match step h w c with
    | some w' => run h w' cs
    | none => none

/-! ## A concrete host, for evaluation -/

/-- An operand of the interpolation: an integer or a string. -/
inductive Value where
  | int (n : Int)
  | str (s : String)
  deriving DecidableEq, Repr

/-- The type and value of an operand as the host prints them in its
mismatch reports. -/
def Value.typed : Value → String
  | .int n => "int=" ++ toString n
  | .str s => "string=" ++ s

/-- One verb applied to one operand, for the verbs `d`, `s` and `v`; any
other pairing is reported in the host's bad-verb form. -/
def Value.verb (c : Char) (v : Value) : String :=
  match c, v with
  | 'd', .int n => toString n
  | 'v', .int n => toString n
  | 's', .str s => s
  | 'v', .str s => s
  | _, _ => "%!" ++ c.toString ++ "(" ++ v.typed ++ ")"

/-- The report for operands left over at the end of the template. -/
def extraReport : List Value → String
  | [] => ""
  | v :: vs => "%!(EXTRA " ++ ", ".intercalate ((v :: vs).map Value.typed) ++ ")"

/-- Interpolation over the characters of the template: the fragment of
`fmt.Sprintf` with the verbs `%d`, `%s`, `%v` and `%%`, without flags,
widths or precisions. -/
def interpolate : List Char → List Value → String
  | [], vs => extraReport vs
  | ['%'], _ => "%!(NOVERB)"
  | '%' :: '%' :: rest, vs => "%" ++ interpolate rest vs
  | '%' :: c :: rest, [] => "%!" ++ c.toString ++ "(MISSING)" ++ interpolate rest []
  | '%' :: c :: rest, v :: vs => v.verb c ++ interpolate rest vs
  | c :: rest, vs => c.toString ++ interpolate rest vs

/-- Colouring as the terminal-colouring collaborator does it when colours are
enabled: the SGR sequence of the attribute, the text, the reset sequence. -/
def ansiSprint (a : color.Attribute) (s : String) : String :=
  (Char.ofNat 27).toString ++ "[" ++ toString a.code ++ "m" ++ s ++
    (Char.ofNat 27).toString ++ "[0m"

/-- A host for evaluation: the clock reading is printed as a decimal after
the layout, colours are SGR sequences, and interpolation is `interpolate`. -/
def demoHost : Host Value where
  Format := fun now layout => layout ++ "@" ++ toString now
  Sprint := ansiSprint
  Sprintf := fun m vs => interpolate m.toList vs

/-! ## Supporting lemmas -/

theorem validLevel_iff (n : Int) : ValidLevel n ↔ n = 0 ∨ n = 1 ∨ n = 2 ∨ n = 3 ∨ n = 4 := by
  simp [ValidLevel]

theorem severity_num_valid (S : Severity) : ValidLevel S.num := by
  cases S <;> decide

theorem SetLevel_of_valid (g : GoggerLogger) (L : Int) (hL : ValidLevel L) :
    g.SetLevel L = ({ g with Level := L }, none) := by
  rcases (validLevel_iff L).1 hL with h | h | h | h | h <;> subst h <;> rfl

theorem SetLevel_of_invalid (g : GoggerLogger) (n : Int) (hn : ¬ ValidLevel n) :
    g.SetLevel n = (g, some (invalidLevel n)) := by
  rw [validLevel_iff] at hn
  have h0 : ¬ (0 : Int) = n := fun h => hn (Or.inl h.symm)
  have h1 : ¬ (1 : Int) = n := fun h => hn (Or.inr (Or.inl h.symm))
  have h2 : ¬ (2 : Int) = n := fun h => hn (Or.inr (Or.inr (Or.inl h.symm)))
  have h3 : ¬ (3 : Int) = n := fun h => hn (Or.inr (Or.inr (Or.inr (Or.inl h.symm))))
  have h4 : ¬ (4 : Int) = n := fun h => hn (Or.inr (Or.inr (Or.inr (Or.inr h.symm))))
  simp [GoggerLogger.SetLevel, GoggerLogger.SetLevel.loop, possibleLevels, VerboseLevel,
    InfoLevel, WarnLevel, ErrorLevel, FatalLevel, h0, h1, h2, h3, h4]

theorem SetLevel_keeps_valid (g : GoggerLogger) (n : Int) (hg : ValidLevel g.Level) :
    ValidLevel (g.SetLevel n).1.Level := by
  by_cases hn : ValidLevel n
  · rw [SetLevel_of_valid g n hn]; exact hn
  · rw [SetLevel_of_invalid g n hn]; exact hg

theorem index_LevelStrings (S : Severity) : index LevelStrings S.num = some S.label := by
  cases S <;> rfl

theorem index_LevelColors (S : Severity) : index LevelColors S.num = some S.colour := by
  cases S <;> rfl

theorem fmtMsg_plain {Arg : Type} (h : Host Arg) (now : Time) (g : GoggerLogger)
    (S : Severity) (m : String) (hc : g.Colorful = false) :
    g.fmtMsg h now S.num m = some (sprintf4 (h.Format now g.TimeFormat) S.label g.ProjectName m) := by
  simp [GoggerLogger.fmtMsg, hc, index_LevelStrings]

theorem fmtMsg_colourful {Arg : Type} (h : Host Arg) (now : Time) (g : GoggerLogger)
    (S : Severity) (m : String) (hc : g.Colorful = true) :
    g.fmtMsg h now S.num m = some (sprintf4 (h.Format now g.TimeFormat)
      (h.Sprint S.colour S.label) (h.Sprint ProjectNameColor g.ProjectName) m) := by
  simp [GoggerLogger.fmtMsg, hc, index_LevelStrings, index_LevelColors]

theorem fmtMsg_stamp {Arg : Type} (h : Host Arg) (g : GoggerLogger)
    (S : Severity) (m : String) :
    ∃ rest, ∀ t : Time, g.fmtMsg h t S.num m = some (h.Format t g.TimeFormat ++ rest) := by
  cases hc : g.Colorful
  · refine ⟨" " ++ S.label ++ " [" ++ g.ProjectName ++ "]: " ++ m, fun t => ?_⟩
    rw [fmtMsg_plain h t g S m hc]
    simp [sprintf4, String.append_assoc]
  · refine ⟨" " ++ h.Sprint S.colour S.label ++ " [" ++ h.Sprint ProjectNameColor g.ProjectName
      ++ "]: " ++ m, fun t => ?_⟩
    rw [fmtMsg_colourful h t g S m hc]
    simp [sprintf4, String.append_assoc]

theorem emit_unfold {Arg : Type} (h : Host Arg) (now : Time) (g : GoggerLogger)
    (out : String) (e : Emission Arg) :
    emit h now g out e =
      if g.Level > e.severity.num then some ⟨false, g, out⟩
      else
        match g.fmtMsg h now e.severity.num (e.text h) with
        | some line => some ⟨true, g, Println out line⟩
        | none => none := by
  cases e with
  | plain S m => cases S <;> rfl
  | formatted S m a => cases S <;> rfl

theorem emit_suppressed {Arg : Type} (h : Host Arg) (now : Time) (g : GoggerLogger)
    (out : String) (e : Emission Arg) (hl : g.Level > e.severity.num) :
    emit h now g out e = some ⟨false, g, out⟩ := by
  rw [emit_unfold, if_pos hl]

theorem emit_written {Arg : Type} (h : Host Arg) (now : Time) (g : GoggerLogger)
    (out : String) (e : Emission Arg) (hl : ¬ g.Level > e.severity.num) :
    ∃ line, g.fmtMsg h now e.severity.num (e.text h) = some line ∧
      emit h now g out e = some ⟨true, g, out ++ line ++ "\n"⟩ := by
  obtain ⟨rest, hrest⟩ := fmtMsg_stamp h g e.severity (e.text h)
  refine ⟨_, hrest now, ?_⟩
  rw [emit_unfold, if_neg hl, hrest now]
  rfl

theorem emit_keeps_logger {Arg : Type} (h : Host Arg) (now : Time) (g : GoggerLogger)
    (out : String) (e : Emission Arg) :
    ∃ o, emit h now g out e = some o ∧ o.g = g := by
  by_cases hl : g.Level > e.severity.num
  · exact ⟨_, emit_suppressed h now g out e hl, rfl⟩
  · obtain ⟨line, _, hw⟩ := emit_written h now g out e hl
    exact ⟨_, hw, rfl⟩

theorem step_keeps_valid {Arg : Type} (h : Host Arg) (w : World) (c : Call Arg)
    (hw : ValidLevel w.g.Level) : ∃ w', step h w c = some w' ∧ ValidLevel w'.g.Level := by
  cases c with
  | SetLevel n => exact ⟨_, rfl, SetLevel_keeps_valid w.g n hw⟩
  | Emit now e =>
    obtain ⟨o, ho, hg⟩ := emit_keeps_logger h now w.g w.stdout e
    refine ⟨⟨o.g, o.stdout⟩, ?_, ?_⟩
    · simp [step, ho]
    · simpa [hg] using hw

theorem run_keeps_valid {Arg : Type} (h : Host Arg) (calls : List (Call Arg)) :
    ∀ w : World, ValidLevel w.g.Level →
      ∃ w', run h w calls = some w' ∧ ValidLevel w'.g.Level := by
  induction calls with
  | nil => intro w hw; exact ⟨w, rfl, hw⟩
  | cons c cs ih =>
    intro w hw
    obtain ⟨w1, h1, hv1⟩ := step_keeps_valid h w c hw
    obtain ⟨w2, h2, hv2⟩ := ih w1 hv1
    exact ⟨w2, by simp [run, h1, h2], hv2⟩

theorem newlines_append (a b : String) : newlines (a ++ b) = newlines a + newlines b := by
  simp [newlines, String.data_append, List.count_append]

theorem newlines_sprintf4 (a b c d : String) :
    newlines (sprintf4 a b c d) = newlines a + newlines b + newlines c + newlines d := by
  have e1 : newlines " " = 0 := by decide
  have e2 : newlines " [" = 0 := by decide
  have e3 : newlines "]: " = 0 := by decide
  simp only [sprintf4, newlines_append, e1, e2, e3]
  omega

theorem newlines_label (S : Severity) : newlines S.label = 0 := by
  cases S <;> decide

/-! ## The claims -/

/-- C1: for every logger `g` and every integer `n` outside {0,1,2,3,4},
`SetLevel n` returns a non-nil error whose message is
"gogger: provided level (n) is invalid" with `n` in decimal, and the logger is
left as it was: `Level`, `ProjectName`, `TimeFormat` and `Colorful` keep their
values and every emission operation behaves as before the call. -/
theorem SetLevel_invalid_rejected {Arg : Type} (h : Host Arg) (g : GoggerLogger) (n : Int)
    (hn : n ∉ ([0, 1, 2, 3, 4] : List Int)) :
    (g.SetLevel n).2 = some ⟨"gogger: provided level (" ++ toString n ++ ") is invalid"⟩ ∧
    (g.SetLevel n).1 = g ∧
    (g.SetLevel n).1.Level = g.Level ∧
    (g.SetLevel n).1.ProjectName = g.ProjectName ∧
    (g.SetLevel n).1.TimeFormat = g.TimeFormat ∧
    (g.SetLevel n).1.Colorful = g.Colorful ∧
    ∀ (now : Time) (out : String) (e : Emission Arg),
      emit h now (g.SetLevel n).1 out e = emit h now g out e := by
  have hs := SetLevel_of_invalid g n hn
  rw [hs]
  exact ⟨rfl, rfl, rfl, rfl, rfl, rfl, fun _ _ _ => rfl⟩

/-- Witness of C1: a fresh logger rejects 5, -1 and 100 with the message that
names the value, and stays at level 1. -/
theorem SetLevel_invalid_rejected_witness :
    (5 : Int) ∉ ([0, 1, 2, 3, 4] : List Int) ∧
    ((New "svc" UKDateTimeFormat false).SetLevel 5).2 =
      some ⟨"gogger: provided level (5) is invalid"⟩ ∧
    ((New "svc" UKDateTimeFormat false).SetLevel (-1)).2 =
      some ⟨"gogger: provided level (-1) is invalid"⟩ ∧
    ((New "svc" UKDateTimeFormat false).SetLevel 100).2 =
      some ⟨"gogger: provided level (100) is invalid"⟩ ∧
    ((New "svc" UKDateTimeFormat false).SetLevel 5).1.Level = 1 :=
  ⟨by decide,
   (SetLevel_invalid_rejected demoHost (New "svc" UKDateTimeFormat false) 5 (by decide)).1,
   (SetLevel_invalid_rejected demoHost (New "svc" UKDateTimeFormat false) (-1) (by decide)).1,
   (SetLevel_invalid_rejected demoHost (New "svc" UKDateTimeFormat false) 100 (by decide)).1,
   (SetLevel_invalid_rejected demoHost (New "svc" UKDateTimeFormat false) 5
      (by decide)).2.2.1⟩

/-- C2: for every logger `g` and every `L` in {0,1,2,3,4}, `SetLevel L`
returns no error and leaves `Level = L` with the other three fields unchanged;
the emission operations of severity `L`, plain and formatted, exist and each
returns true when called right after it. -/
theorem SetLevel_valid_accepted {Arg : Type} (h : Host Arg) (g : GoggerLogger) (L : Int)
    (hL : L ∈ ([0, 1, 2, 3, 4] : List Int)) :
    (g.SetLevel L).2 = none ∧
    (g.SetLevel L).1.Level = L ∧
    (g.SetLevel L).1.ProjectName = g.ProjectName ∧
    (g.SetLevel L).1.TimeFormat = g.TimeFormat ∧
    (g.SetLevel L).1.Colorful = g.Colorful ∧
    (∃ S : Severity, S.num = L) ∧
    ∀ (now : Time) (out : String) (e : Emission Arg), e.severity.num = L →
      ∃ o, emit h now (g.SetLevel L).1 out e = some o ∧ o.ret = true := by
  have hs := SetLevel_of_valid g L hL
  rw [hs]
  refine ⟨rfl, rfl, rfl, rfl, rfl, ?_, ?_⟩
  · rcases (validLevel_iff L).1 hL with h | h | h | h | h
    · exact ⟨.Verbose, h.symm⟩
    · exact ⟨.Info, h.symm⟩
    · exact ⟨.Warn, h.symm⟩
    · exact ⟨.Error, h.symm⟩
    · exact ⟨.Fatal, h.symm⟩
  · intro now out e he
    have hl : ¬ ({ g with Level := L } : GoggerLogger).Level > e.severity.num := by
      simp [he]
    obtain ⟨line, _, hw⟩ := emit_written h now { g with Level := L } out e hl
    exact ⟨_, hw, rfl⟩

/-- Witness of C2: a fresh logger accepts level 3, and `Error` then returns
true. -/
theorem SetLevel_valid_accepted_witness :
    (3 : Int) ∈ ([0, 1, 2, 3, 4] : List Int) ∧
    ((New "svc" UKDateTimeFormat false).SetLevel 3).2 = none ∧
    ((New "svc" UKDateTimeFormat false).SetLevel 3).1.Level = 3 ∧
    ∃ o, emit demoHost 7 ((New "svc" UKDateTimeFormat false).SetLevel 3).1 ""
      (Emission.plain Severity.Error "boom") = some o ∧ o.ret = true :=
  have hw := SetLevel_valid_accepted demoHost (New "svc" UKDateTimeFormat false) 3 (by decide)
  ⟨by decide, hw.1, hw.2.1, hw.2.2.2.2.2.2 7 "" (Emission.plain Severity.Error "boom") rfl⟩

/-- C3 as stated fails: on a fresh logger (level 1, colours off, project
"svc") `Info` of a message that holds a newline character returns true and
appends a text of two newline-terminated lines to standard output, not
exactly one. -/
theorem emission_line_counterexample :
    ¬ (New "svc" UKDateTimeFormat false).Level > Severity.Info.num ∧
    (New "svc" UKDateTimeFormat false).Info demoHost 7 "" "a\nb" =
      some ⟨true, New "svc" UKDateTimeFormat false,
        "" ++ "02-01-2006 15:04:05@7 info    [svc]: a\nb" ++ "\n"⟩ ∧
    newlines ("02-01-2006 15:04:05@7 info    [svc]: a\nb" ++ "\n") = 2 ∧
    newlines ("02-01-2006 15:04:05@7 info    [svc]: a\nb" ++ "\n") ≠ 1 := by
  decide

/-- C3, amended: for every logger `g`, whatever integer its `Level` holds, and
each of the ten emission operations with its fixed severity `S`: the call
returns; it returns false with standard output untouched exactly when
`g.Level > S`; otherwise it returns true after appending to standard output,
in one write, the text built by `fmtMsg` followed by one newline. The appended
text holds one newline-terminated line more than the newline characters of its
parts: the rendered timestamp, the label as rendered (the bare label holds
none), the project name as rendered, and the message text. So it is exactly
one newline-terminated line whenever those parts hold no newline character. -/
theorem emission_filter {Arg : Type} (h : Host Arg) (now : Time) (g : GoggerLogger)
    (out : String) (e : Emission Arg) :
    (∃ o, emit h now g out e = some o) ∧
    ((∃ o, emit h now g out e = some o ∧ o.ret = false ∧ o.stdout = out) ↔
      g.Level > e.severity.num) ∧
    (¬ g.Level > e.severity.num →
      ∃ line, g.fmtMsg h now e.severity.num (e.text h) = some line ∧
        emit h now g out e = some ⟨true, g, out ++ line ++ "\n"⟩ ∧
        newlines (line ++ "\n") = 1 + newlines line ∧
        (g.Colorful = false →
          newlines line = newlines (h.Format now g.TimeFormat) + newlines g.ProjectName +
            newlines (e.text h)) ∧
        (g.Colorful = true →
          newlines line = newlines (h.Format now g.TimeFormat) +
            newlines (h.Sprint e.severity.colour e.severity.label) +
            newlines (h.Sprint ProjectNameColor g.ProjectName) + newlines (e.text h)) ∧
        (newlines line = 0 → newlines (line ++ "\n") = 1)) := by
  refine ⟨?_, ⟨?_, ?_⟩, ?_⟩
  · obtain ⟨o, ho, _⟩ := emit_keeps_logger h now g out e
    exact ⟨o, ho⟩
  · rintro ⟨o, ho, hr, _⟩
    by_contra hl
    obtain ⟨line, _, hw⟩ := emit_written h now g out e hl
    rw [hw] at ho
    cases ho
    cases hr
  · intro hl
    exact ⟨_, emit_suppressed h now g out e hl, rfl, rfl⟩
  · intro hl
    obtain ⟨line, hline, hw⟩ := emit_written h now g out e hl
    have hnl : newlines (line ++ "\n") = 1 + newlines line := by
      have e1 : newlines "\n" = 1 := by decide
      rw [newlines_append, e1]
      omega
    refine ⟨line, hline, hw, hnl, ?_, ?_, ?_⟩
    · intro hc
      rw [fmtMsg_plain h now g e.severity (e.text h) hc] at hline
      cases hline
      rw [newlines_sprintf4, newlines_label]
      omega
    · intro hc
      rw [fmtMsg_colourful h now g e.severity (e.text h) hc] at hline
      cases hline
      rw [newlines_sprintf4]
    · intro h0
      rw [hnl, h0]

/-- Witness of C3, amended: `Info "ready"` on a fresh logger of project "svc"
returns true and appends exactly one newline-terminated line. -/
theorem emission_filter_witness :
    ¬ (New "svc" UKDateTimeFormat false).Level >
      (Emission.plain Severity.Info "ready" : Emission Value).severity.num ∧
    ∃ line, emit demoHost 7 (New "svc" UKDateTimeFormat false) ""
        (Emission.plain Severity.Info "ready") =
          some ⟨true, New "svc" UKDateTimeFormat false, "" ++ line ++ "\n"⟩ ∧
      line = "02-01-2006 15:04:05@7 info    [svc]: ready" ∧
      newlines (line ++ "\n") = 1 :=
  have hl : ¬ (New "svc" UKDateTimeFormat false).Level >
      (Emission.plain Severity.Info "ready" : Emission Value).severity.num := by decide
  match (emission_filter demoHost 7 (New "svc" UKDateTimeFormat false) ""
      (Emission.plain Severity.Info "ready")).2.2 hl with
  | ⟨line, hline, hw, _, hplain, _, hone⟩ =>
    have hlit : line = "02-01-2006 15:04:05@7 info    [svc]: ready" :=
      Option.some.inj (hline.symm.trans (by decide))
    ⟨hl, line, hw, hlit, hone (by rw [hlit]; decide)⟩

/-- C4: for every project name `p`, time format `f` and flag `c`, `New p f c`
is a logger with `ProjectName = p`, `TimeFormat = f`, `Colorful = c` and
`Level = 1` (Info); on it `Verbose` returns false and writes nothing, and
`Info` returns true and writes one line. -/
theorem New_defaults {Arg : Type} (h : Host Arg) (p f : String) (c : Bool) (now : Time)
    (out m : String) :
    (New p f c).ProjectName = p ∧ (New p f c).TimeFormat = f ∧
    (New p f c).Colorful = c ∧ (New p f c).Level = 1 ∧ InfoLevel = 1 ∧
    (New p f c).Verbose h now out m = some ⟨false, New p f c, out⟩ ∧
    ∃ line, (New p f c).Info h now out m = some ⟨true, New p f c, out ++ line ++ "\n"⟩ := by
  refine ⟨rfl, rfl, rfl, rfl, rfl, rfl, ?_⟩
  have hl : ¬ (New p f c).Level > (Emission.plain Severity.Info m : Emission Arg).severity.num := by
    show ¬ (1 : Int) > 1
    decide
  obtain ⟨line, _, hw⟩ := emit_written h now (New p f c) out (Emission.plain Severity.Info m) hl
  exact ⟨line, hw⟩

/-- C5: for every logger with `Colorful = false`, every severity `S`, message
`m` and rendered timestamp `t`, the line of an emitted message is exactly
`t ++ " " ++ label S ++ " [" ++ ProjectName ++ "]: " ++ m`, where `label S` is
the `S`-th entry of `LevelStrings` and has length 7; every operation of that
severity that is not suppressed writes that line and returns true. On a fresh
logger of project "svc", `Warn "disk at 90%"` writes
`t ++ " warn    [svc]: disk at 90%"` and returns true. -/
theorem plain_line_format {Arg : Type} (h : Host Arg) (now : Time) (g : GoggerLogger)
    (out : String) (S : Severity) (m : String) (hc : g.Colorful = false) :
    index LevelStrings S.num = some S.label ∧ S.label.length = 7 ∧
    g.fmtMsg h now S.num m =
      some (h.Format now g.TimeFormat ++ " " ++ S.label ++ " [" ++ g.ProjectName ++ "]: " ++ m) ∧
    (∀ e : Emission Arg, e.severity = S → e.text h = m → ¬ g.Level > S.num →
      emit h now g out e = some ⟨true, g,
        out ++ (h.Format now g.TimeFormat ++ " " ++ S.label ++ " [" ++ g.ProjectName ++ "]: " ++ m)
          ++ "\n"⟩) ∧
    (g = New "svc" g.TimeFormat false →
      g.Warn h now out "disk at 90%" = some ⟨true, g,
        out ++ (h.Format now g.TimeFormat ++ " warn    [svc]: disk at 90%") ++ "\n"⟩) := by
  have hf := fmtMsg_plain h now g S m hc
  refine ⟨index_LevelStrings S, by cases S <;> decide, hf, ?_, ?_⟩
  · intro e he ht hl
    subst he
    obtain ⟨line, hline, hw⟩ := emit_written h now g out e hl
    rw [ht, hf] at hline
    cases hline
    exact hw
  · intro hg
    have hl : ¬ g.Level > (Emission.plain Severity.Warn "disk at 90%" : Emission Arg).severity.num := by
      rw [hg]
      show ¬ (1 : Int) > 2
      decide
    obtain ⟨line, hline, hw⟩ :=
      emit_written h now g out (Emission.plain Severity.Warn "disk at 90%") hl
    have hf' := fmtMsg_plain h now g Severity.Warn "disk at 90%" hc
    rw [show (Emission.plain Severity.Warn "disk at 90%" : Emission Arg).text h = "disk at 90%"
      from rfl] at hline
    rw [show (Emission.plain Severity.Warn "disk at 90%" : Emission Arg).severity = Severity.Warn
      from rfl, hf'] at hline
    cases hline
    have hp : g.ProjectName = "svc" := by rw [hg]; rfl
    have hlit : sprintf4 (h.Format now g.TimeFormat) Severity.Warn.label g.ProjectName
        "disk at 90%" = h.Format now g.TimeFormat ++ " warn    [svc]: disk at 90%" := by
      rw [hp]
      simp only [sprintf4, String.append_assoc]
      congr 1
    rw [hlit] at hw
    exact hw

/-- Witness of C5: the scenario of the specification on the evaluation host at
clock reading 7. -/
theorem plain_line_format_witness :
    (New "svc" UKDateTimeFormat false).Colorful = false ∧
    (New "svc" UKDateTimeFormat false).Warn demoHost 7 "" "disk at 90%" =
      some ⟨true, New "svc" UKDateTimeFormat false,
        "02-01-2006 15:04:05@7 warn    [svc]: disk at 90%\n"⟩ :=
  ⟨rfl, (plain_line_format demoHost 7 (New "svc" UKDateTimeFormat false) "" Severity.Warn
    "disk at 90%" rfl).2.2.2.2 rfl⟩

/-- C6: a logger obtained from `New` and subjected to any finite sequence of
`SetLevel` calls, with arbitrary integer arguments, and emission calls: the
sequence runs to its end and `Level` is then one of {0,1,2,3,4}. Every prefix
of a sequence is a sequence, so this holds after every call. -/
theorem level_invariant {Arg : Type} (h : Host Arg) (p f : String) (c : Bool) (out : String)
    (calls : List (Call Arg)) :
    ∃ w, run h ⟨New p f c, out⟩ calls = some w ∧
      w.g.Level ∈ ([0, 1, 2, 3, 4] : List Int) :=
  run_keeps_valid h calls ⟨New p f c, out⟩ (by show ValidLevel 1; decide)

/-- C7: for every logger, severity, template `m` and operand list `args`, the
formatted variant called with `(m, args)` gives the outcome (return value and
standard output) of the plain variant of the same severity called with
`Sprintf m args`, and writes nothing when suppressed. On the evaluation host,
`Infof "count=%d" 42` on a fresh logger writes a line whose message segment is
"count=42". -/
theorem formatted_refines_plain {Arg : Type} (h : Host Arg) (now : Time) (g : GoggerLogger)
    (out : String) (S : Severity) (m : String) (args : List Arg) :
    formatted h now g out S m args = plain h now g out S (h.Sprintf m args) ∧
    (g.Level > S.num → formatted h now g out S m args = some ⟨false, g, out⟩) ∧
    demoHost.Sprintf "count=%d" [Value.int 42] = "count=42" ∧
    (New "svc" UKDateTimeFormat false).Infof demoHost 7 "" "count=%d" [Value.int 42] =
      some ⟨true, New "svc" UKDateTimeFormat false,
        demoHost.Format 7 UKDateTimeFormat ++ " info    [svc]: " ++ "count=42" ++ "\n"⟩ := by
  refine ⟨by cases S <;> rfl, ?_, by decide, by decide⟩
  intro hl
  exact emit_suppressed h now g out (Emission.formatted S m args) hl

/-- C8 as stated fails: with colours rendered as SGR sequences, the line of
`Warn "disk at 90%"` on a colourful logger of project "svc" has the brackets
of the tag outside the green wrapping, whereas the claimed line has them
inside. -/
theorem colourful_tag_counterexample :
    (New "svc" UKDateTimeFormat true).fmtMsg demoHost 7 WarnLevel "disk at 90%" =
      some ("02-01-2006 15:04:05@7 " ++ ansiSprint color.Attribute.FgYellow "warn   " ++
        " [" ++ ansiSprint color.Attribute.FgGreen "svc" ++ "]: disk at 90%") ∧
    specColourfulLine demoHost.Sprint (demoHost.Format 7 UKDateTimeFormat) "svc"
        Severity.Warn "disk at 90%" =
      "02-01-2006 15:04:05@7 " ++ ansiSprint color.Attribute.FgYellow "warn   " ++
        " " ++ ansiSprint color.Attribute.FgGreen "[svc]" ++ ": disk at 90%" ∧
    (New "svc" UKDateTimeFormat true).fmtMsg demoHost 7 WarnLevel "disk at 90%" ≠
      some (specColourfulLine demoHost.Sprint (demoHost.Format 7 UKDateTimeFormat) "svc"
        Severity.Warn "disk at 90%") := by
  decide

/-- C8, amended: for every logger with `Colorful = true`, every severity `S`,
message `m` and timestamp `t`, with the colour facility an arbitrary function
`Sprint`: the line is
`t ++ " " ++ Sprint (colour S) (label S) ++ " [" ++ Sprint green ProjectName ++ "]: " ++ m`,
where `colour S` is the `S`-th entry of `LevelColors` (magenta, cyan, yellow,
red, red). The project name alone is wrapped in green, whatever `S`; the
brackets around it, the timestamp and the message are not wrapped. Every
operation of that severity that is not suppressed writes that line. -/
theorem colourful_line_format {Arg : Type} (h : Host Arg) (now : Time) (g : GoggerLogger)
    (out : String) (S : Severity) (m : String) (hc : g.Colorful = true) :
    index LevelColors S.num = some S.colour ∧
    index LevelStrings S.num = some S.label ∧
    ProjectNameColor = color.Attribute.FgGreen ∧
    g.fmtMsg h now S.num m =
      some (h.Format now g.TimeFormat ++ " " ++ h.Sprint S.colour S.label ++ " [" ++
        h.Sprint color.Attribute.FgGreen g.ProjectName ++ "]: " ++ m) ∧
    (∀ e : Emission Arg, e.severity = S → e.text h = m → ¬ g.Level > S.num →
      emit h now g out e = some ⟨true, g,
        out ++ (h.Format now g.TimeFormat ++ " " ++ h.Sprint S.colour S.label ++ " [" ++
          h.Sprint color.Attribute.FgGreen g.ProjectName ++ "]: " ++ m) ++ "\n"⟩) := by
  have hf := fmtMsg_colourful h now g S m hc
  refine ⟨index_LevelColors S, index_LevelStrings S, rfl, hf, ?_⟩
  intro e he ht hl
  subst he
  obtain ⟨line, hline, hw⟩ := emit_written h now g out e hl
  rw [ht, hf] at hline
  cases hline
  exact hw

/-- Witness of C8, amended: the colourful line of `Warn "disk at 90%"` for
project "svc" on the evaluation host. -/
theorem colourful_line_format_witness :
    (New "svc" UKDateTimeFormat true).Colorful = true ∧
    (New "svc" UKDateTimeFormat true).fmtMsg demoHost 7 Severity.Warn.num "disk at 90%" =
      some (demoHost.Format 7 UKDateTimeFormat ++ " " ++
        demoHost.Sprint Severity.Warn.colour Severity.Warn.label ++ " [" ++
        demoHost.Sprint color.Attribute.FgGreen "svc" ++ "]: " ++ "disk at 90%") :=
  ⟨rfl, (colourful_line_format demoHost 7 (New "svc" UKDateTimeFormat true) "" Severity.Warn
    "disk at 90%" rfl).2.2.2.1⟩

/-- C9: every emission operation leaves the logger as it was, so calling the
same operation twice, at clock readings `t1` and `t2`, returns the same
boolean both times; when suppressed neither call writes, and when emitted the
two written lines are the two timestamps (`t1` and `t2` rendered with
`g.TimeFormat`) followed by one and the same remainder. -/
theorem emission_repeatable {Arg : Type} (h : Host Arg) (g : GoggerLogger) (out : String)
    (e : Emission Arg) (t1 t2 : Time) :
    ∃ o1 o2, emit h t1 g out e = some o1 ∧ emit h t2 o1.g o1.stdout e = some o2 ∧
      o1.g = g ∧ o2.g = g ∧ o1.ret = o2.ret ∧
      (o1.ret = false → o1.stdout = out ∧ o2.stdout = out) ∧
      (o1.ret = true → ∃ rest,
        o1.stdout = out ++ (h.Format t1 g.TimeFormat ++ rest) ++ "\n" ∧
        o2.stdout = o1.stdout ++ (h.Format t2 g.TimeFormat ++ rest) ++ "\n") := by
  by_cases hl : g.Level > e.severity.num
  · refine ⟨⟨false, g, out⟩, ⟨false, g, out⟩, emit_suppressed h t1 g out e hl,
      emit_suppressed h t2 g out e hl, rfl, rfl, rfl, fun _ => ⟨rfl, rfl⟩, ?_⟩
    intro hr
    cases hr
  · obtain ⟨rest, hrest⟩ := fmtMsg_stamp h g e.severity (e.text h)
    obtain ⟨l1, hl1, hw1⟩ := emit_written h t1 g out e hl
    obtain ⟨l2, hl2, hw2⟩ := emit_written h t2 g (out ++ l1 ++ "\n") e hl
    rw [hrest t1] at hl1
    rw [hrest t2] at hl2
    cases hl1
    cases hl2
    refine ⟨_, _, hw1, hw2, rfl, rfl, rfl, ?_, fun _ => ⟨rest, rfl, rfl⟩⟩
    intro hr
    cases hr

/-- C10: on every logger reached from `New` by a sequence of calls of the
public API (sequences of `SetLevel` calls with arbitrary arguments among
them), `Fatal` and `Fatalf` return true and append one line to standard
output; and on such a logger, when the emission at severity `S` returns true,
so does the emission at every severity `S' ≥ S`. -/
theorem fatal_never_filtered {Arg : Type} (h : Host Arg) (p f : String) (c : Bool)
    (out0 : String) (calls : List (Call Arg)) (now : Time) (out : String) :
    ∃ w, run h ⟨New p f c, out0⟩ calls = some w ∧
      (∀ m, ∃ line, w.g.Fatal h now out m = some ⟨true, w.g, out ++ line ++ "\n"⟩) ∧
      (∀ m args, ∃ line,
        w.g.Fatalf h now out m args = some ⟨true, w.g, out ++ line ++ "\n"⟩) ∧
      (∀ e e' : Emission Arg, e.severity.num ≤ e'.severity.num →
        (∃ o, emit h now w.g out e = some o ∧ o.ret = true) →
        ∃ o', emit h now w.g out e' = some o' ∧ o'.ret = true) := by
  obtain ⟨w, hw, hv⟩ := run_keeps_valid h calls ⟨New p f c, out0⟩ (by show ValidLevel 1; decide)
  have h4 : ¬ w.g.Level > 4 := by
    rcases (validLevel_iff _).1 hv with h | h | h | h | h <;> rw [h] <;> decide
  refine ⟨w, hw, ?_, ?_, ?_⟩
  · intro m
    obtain ⟨line, _, hl⟩ := emit_written h now w.g out (Emission.plain Severity.Fatal m) h4
    exact ⟨line, hl⟩
  · intro m args
    obtain ⟨line, _, hl⟩ :=
      emit_written h now w.g out (Emission.formatted Severity.Fatal m args) h4
    exact ⟨line, hl⟩
  · rintro e e' hle ⟨o, ho, hr⟩
    have hl : ¬ w.g.Level > e.severity.num := by
      intro hgt
      rw [emit_suppressed h now w.g out e hgt] at ho
      cases ho
      cases hr
    have hl' : ¬ w.g.Level > e'.severity.num := by
      intro hgt
      exact hl (lt_of_le_of_lt hle hgt)
    obtain ⟨line, _, hw'⟩ := emit_written h now w.g out e' hl'
    exact ⟨_, hw', rfl⟩

end gogger
